import Mathlib

/-!
Verification of the frontend player of `src/frontend/app.js`.

The file models the client-side code: `validateUrl` (app.js:273-302) with its
compiled `URL_PATTERN` (app.js:264-265), `playAudio` (app.js:455-506),
`fetchTrackInfo` (app.js:440-452), `connectWaveformWS` (app.js:403-437),
the audio element's `ended` and `error` listeners (app.js:539-554),
`pauseAudio`/`togglePlayPause` (app.js:509-522) and the waveform drawing
geometry of `drawWaveform` (app.js:333-392) with the canvas height fixed to
150 by `resizeCanvas` (app.js:322-327).

Browser built-ins used by that code (`String.prototype.trim`,
`encodeURIComponent`, regular-expression matching of the concrete
`URL_PATTERN`, UTF-8) are given executable models below; the `new URL(...)`
constructor, whose full parsing behavior is a platform black box, is kept as
an explicit parameter `parse : String → Option String` returning the
`protocol` field on success and `none` where the constructor would throw.
Asynchronous effects (fetch, audio element, WebSocket) are recorded in an
explicit effect list, and the mutable page state is a `PlayerState` record.
-/

/-- The JavaScript whitespace class (the set matched by `\s` and stripped by
`String.prototype.trim`): tab through carriage return, space, NBSP, Ogham
space mark, the U+2000 block, line/paragraph separators, narrow NBSP,
medium mathematical space, ideographic space, and the BOM. -/
def isJsSpace (c : Char) : Bool :=
  let n := c.toNat
  (9 ≤ n && n ≤ 13) || n = 32 || n = 160 || n = 0x1680 ||
  (0x2000 ≤ n && n ≤ 0x200a) || n = 0x2028 || n = 0x2029 ||
  n = 0x202f || n = 0x205f || n = 0x3000 || n = 0xfeff

/-- Model of JavaScript `String.prototype.trim`: strip leading and trailing
JS whitespace. -/
def jsTrim (s : String) : String :=
  String.mk (((s.data.dropWhile isJsSpace).reverse.dropWhile isJsSpace).reverse)

/-- ASCII lowercasing of one character, as the `i` flag of `URL_PATTERN`
(app.js:265) treats letters. -/
def lowerChar (c : Char) : Char :=
  if 65 ≤ c.toNat && c.toNat ≤ 90 then Char.ofNat (c.toNat + 32) else c

/-- ASCII decimal digit, the `\d` class. -/
def isDigitB (c : Char) : Bool := 48 ≤ c.toNat && c.toNat ≤ 57

/-- Lowercase ASCII letter (the pattern is matched on lowercased input). -/
def isLowAlphaB (c : Char) : Bool := 97 ≤ c.toNat && c.toNat ≤ 122

/-- Lowercase ASCII letter or digit: the `[A-Z0-9]` class of `URL_PATTERN`
under the `i` flag, on lowercased input. -/
def isAlnumB (c : Char) : Bool := isLowAlphaB c || isDigitB c

/-- Drop a literal from the front of a character list; `none` when the list
does not start with the literal. -/
def dropLit : List Char → List Char → Option (List Char)
  | [], cs => some cs
  | _ :: _, [] => none
  | l :: ls, c :: cs => if c = l then dropLit ls cs else none

/-- Split a character list at every dot, the decomposition used to match the
dotted host alternatives of `URL_PATTERN`. -/
def splitDots : List Char → List (List Char)
  | [] => [[]]
  | c :: cs =>
    let ps := splitDots cs
    if c = '.' then [] :: ps
    else match ps with
      | [] => [[c]]
      | p :: rest => (c :: p) :: rest

/-- One DNS label of `URL_PATTERN`: `[A-Z0-9](?:[A-Z0-9-]{0,61}[A-Z0-9])?`,
i.e. one alphanumeric character, or 2 to 63 characters of alphanumerics and
hyphens whose first and last characters are alphanumeric. -/
def labelOk (l : List Char) : Bool :=
  1 ≤ l.length && l.length ≤ 63 &&
  (match l.head? with | some c => isAlnumB c | none => false) &&
  (match l.getLast? with | some c => isAlnumB c | none => false) &&
  l.all (fun c => isAlnumB c || c = '-')

/-- The top-level-domain piece of `URL_PATTERN`: `[A-Z]{2,6}`. -/
def tldOk (t : List Char) : Bool :=
  2 ≤ t.length && t.length ≤ 6 && t.all isLowAlphaB

/-- A dotted-name part list shaped `(LABEL.)+TLD`: at least two parts, all but
the last valid labels, the last a valid TLD. -/
def domCore (ps : List (List Char)) : Bool :=
  2 ≤ ps.length && ps.dropLast.all labelOk &&
  (match ps.getLast? with | some t => tldOk t | none => false)

/-- The domain alternative of `URL_PATTERN`:
`(?:[A-Z0-9](?:[A-Z0-9-]{0,61}[A-Z0-9])?\.)+[A-Z]{2,6}\.?`, allowing an
optional trailing dot. -/
def domainOk (h : List Char) : Bool :=
  let ps := splitDots h
  domCore ps ||
  (match ps.getLast? with | some [] => domCore ps.dropLast | _ => false)

/-- The IPv4-looking alternative of `URL_PATTERN`:
`\d{1,3}\.\d{1,3}\.\d{1,3}\.\d{1,3}`. -/
def ipv4Ok (h : List Char) : Bool :=
  let ps := splitDots h
  ps.length = 4 && ps.all (fun p => 1 ≤ p.length && p.length ≤ 3 && p.all isDigitB)

/-- The host group of `URL_PATTERN`: a dotted domain, the literal
`localhost`, or four dot-separated 1-3 digit runs. -/
def hostOk (h : List Char) : Bool :=
  domainOk h || h = "localhost".data || ipv4Ok h

/-- The trailing path group of `URL_PATTERN`: `(?:\/?|[/?]\S+)$` — empty, a
single slash, or a slash or question mark followed by one or more
non-whitespace characters reaching the end of the string. -/
def pathOk (t : List Char) : Bool :=
  t = [] || t = ['/'] ||
  (match t with
   | c :: rest => (c = '/' || c = '?') && !rest.isEmpty && rest.all (fun ch => !isJsSpace ch)
   | [] => false)

/-- The optional port plus path tail of `URL_PATTERN`: `(?::\d+)?(?:\/?|[/?]\S+)$`.
When a colon follows the host, one or more digits are consumed (the maximal
run: the path group cannot start with a digit) before the path group. -/
def tailOk (t : List Char) : Bool :=
  pathOk t ||
  (match t with
   | c :: rest =>
     c = ':' &&
     (let ds := rest.takeWhile isDigitB
      !ds.isEmpty && pathOk (rest.drop ds.length))
   | [] => false)

/-- Model of `URL_PATTERN.test` for the compiled pattern of app.js:265:
`^https?:\/\/(?:(?:[A-Z0-9](?:[A-Z0-9-]{0,61}[A-Z0-9])?\.)+[A-Z]{2,6}\.?|localhost|\d{1,3}\.\d{1,3}\.\d{1,3}\.\d{1,3})(?::\d+)?(?:\/?|[/?]\S+)$/i`.
The input is lowercased (the `i` flag), the scheme literal is stripped, and
the remainder must split into a host part and a port/path tail at some
position. -/
def urlPatternTest (s : String) : Bool :=
  let cs := s.data.map lowerChar
  match dropLit "https://".data cs with
  | some r => (List.range (r.length + 1)).any (fun i => hostOk (r.take i) && tailOk (r.drop i))
  | none =>
    match dropLit "http://".data cs with
    | some r => (List.range (r.length + 1)).any (fun i => hostOk (r.take i) && tailOk (r.drop i))
    | none => false

/-- A JavaScript value passed to `validateUrl`: a string, or any non-string
value (the code only distinguishes the two via `typeof url !== 'string'`,
and `!url` on a string is true exactly for the empty string). -/
inductive JsValue where
  | str (s : String)
  | notStr
deriving DecidableEq

/-- Model of `validateUrl` (app.js:273-302). `parse` models the `new URL`
constructor: `none` where it would throw, otherwise the `protocol` field of
the parsed URL. The function is total: every input yields a boolean. -/
def validateUrl (parse : String → Option String) (v : JsValue) : Bool :=
  match v with
  | .notStr => false
  | .str s =>
    if s = "" then false
    else
      let u := jsTrim s
      if u.length < 10 || 2048 < u.length then false
      else if !urlPatternTest u then false
      else
        match parse u with
        | none => false
        | some proto => proto = "http:" || proto = "https:"

/-- UTF-8 bytes of a code point, as byte values. -/
def utf8Bytes (n : Nat) : List Nat :=
  if n < 0x80 then [n]
  else if n < 0x800 then [0xC0 + n / 64, 0x80 + n % 64]
  else if n < 0x10000 then [0xE0 + n / 4096, 0x80 + (n / 64) % 64, 0x80 + n % 64]
  else [0xF0 + n / 262144, 0x80 + (n / 4096) % 64, 0x80 + (n / 64) % 64, 0x80 + n % 64]

/-- Uppercase hexadecimal digit of a value below 16. -/
def hexDigit (n : Nat) : Char :=
  if n < 10 then Char.ofNat (48 + n) else Char.ofNat (55 + n)

/-- The bytes `encodeURIComponent` leaves unescaped: ASCII letters, digits,
and `- _ . ! ~ * ' ( )`. -/
def uriUnreserved (b : Nat) : Bool :=
  (65 ≤ b && b ≤ 90) || (97 ≤ b && b ≤ 122) || (48 ≤ b && b ≤ 57) ||
  b = 45 || b = 95 || b = 46 || b = 33 || b = 126 || b = 42 ||
  b = 39 || b = 40 || b = 41

/-- Escape one byte as `encodeURIComponent` does: unreserved bytes stand for
themselves, every other byte becomes `%XX` with uppercase hex. -/
def escByte (b : Nat) : List Char :=
  if uriUnreserved b then [Char.ofNat b]
  else ['%', hexDigit (b / 16), hexDigit (b % 16)]

/-- Model of JavaScript `encodeURIComponent`: UTF-8 encode the string and
percent-escape every byte outside the unreserved set. -/
def encodeURIComponent (s : String) : String :=
  String.mk (s.data.flatMap (fun c => (utf8Bytes c.toNat).flatMap escByte))

/-- A client-held WebSocket: the URL it was opened on and whether the client
has not (yet) closed it. -/
structure Socket where
  url : String
  isOpen : Bool
deriving DecidableEq

/-- The mutable page state touched by app.js: the play button's three visual
attributes, the track title text, the amplitude buffer, the audio element's
source and volume, the volume slider position, the `ws` variable, and the
`isPlaying` flag. `gone` is a history variable: every socket the `ws`
variable stopped referencing, recorded at the moment it was replaced. -/
structure PlayerState where
  playBtnDisabled : Bool
  playBtnLoading : Bool
  playBtnHtml : String
  trackTitle : String
  amplitudes : List ℚ
  audioSrc : Option String
  volume : ℚ
  sliderValue : ℚ
  ws : Option Socket
  isPlaying : Bool
  gone : List Socket

/-- The external actions app.js can take, in program order: an `alert`
dialog, a `fetch` of the `/info` endpoint, assigning the audio element's
`src` to a `/stream` URL, closing or opening a `/ws/waveform` WebSocket,
and calling `play()` or `pause()` on the audio element. -/
inductive Effect where
  | alert (msg : String)
  | fetchInfo (u : String)
  | setSrc (u : String)
  | closeWS (s : Socket)
  | openWS (u : String)
  | playCall
  | pauseCall
deriving DecidableEq

/-- The environment a `playAudio` run sees: the page location (app.js:255,
260-262), the `new URL` model used by `validateUrl`, the outcome of the
`/info` fetch (`infoOk` false models a rejected fetch or body parse, caught
inside `fetchTrackInfo`; `infoTitle` is the `title` field of the response,
when present), and whether `audioPlayer.play()` resolves. -/
structure Env where
  hostname : String
  protocol : String
  parse : String → Option String
  infoOk : Bool
  infoTitle : Option String
  playOk : Bool

/-- `BACKEND_URL` (app.js:255-257): localhost gets a fixed http URL,
otherwise the page protocol, hostname and port 8000. -/
def backendURL (e : Env) : String :=
  if e.hostname = "localhost" || e.hostname = "127.0.0.1" then "http://localhost:8000"
  else e.protocol ++ "//" ++ e.hostname ++ ":8000"

/-- `WS_PROTOCOL` (app.js:259). -/
def wsProto (e : Env) : String :=
  if e.protocol = "https:" then "wss:" else "ws:"

/-- `WS_URL` (app.js:260-262). -/
def wsURL (e : Env) : String :=
  if e.hostname = "localhost" || e.hostname = "127.0.0.1" then "ws://localhost:8000"
  else wsProto e ++ "//" ++ e.hostname ++ ":8000"

/-- The `/info` request URL built by `fetchTrackInfo` (app.js:442). -/
def infoRequestURL (e : Env) (videoUrl : String) : String :=
  backendURL e ++ "/info?url=" ++ encodeURIComponent videoUrl

/-- The `/stream` URL assigned to the audio element by `playAudio`
(app.js:481). -/
def streamRequestURL (e : Env) (videoUrl : String) : String :=
  backendURL e ++ "/stream?url=" ++ encodeURIComponent videoUrl

/-- The `/ws/waveform` URL opened by `connectWaveformWS` (app.js:408). -/
def waveformWsURL (e : Env) (videoUrl : String) : String :=
  wsURL e ++ "/ws/waveform?url=" ++ encodeURIComponent videoUrl

/-- The play button's idle markup, written by the pause/ended/error paths. -/
def playHtml : String := "<span class=\"play-icon\">▶</span> Play"

/-- The play button's loading markup (app.js:472). -/
def loadingHtml : String := "<span class=\"play-icon\">⏳</span> Loading..."

/-- The play button's playing markup (app.js:492). -/
def pauseHtml : String := "<span class=\"play-icon\">⏸</span> Pause"

/-- Model of `fetchTrackInfo` (app.js:440-452): issue the `/info` fetch; on
success set the track title when the response carries a non-empty `title`;
any thrown error is caught inside the function, which then changes
nothing. -/
def fetchTrackInfo (e : Env) (videoUrl : String) (st : PlayerState) :
    PlayerState × List Effect :=
  let effs := [Effect.fetchInfo (infoRequestURL e videoUrl)]
  if e.infoOk then
    match e.infoTitle with
    | some t => if t ≠ "" then ({ st with trackTitle := t }, effs) else (st, effs)
    | none => (st, effs)
  else (st, effs)

/-- Model of `connectWaveformWS` (app.js:403-437): close the socket held in
`ws` when there is one, then open a new socket on the waveform URL and store
it in `ws`. The replaced socket is recorded, closed, in `gone`. -/
def connectWaveformWS (e : Env) (videoUrl : String) (st : PlayerState) :
    PlayerState × List Effect :=
  let closeEffs := match st.ws with
    | some s => [Effect.closeWS s]
    | none => []
  let goneSocks := match st.ws with
    | some s => st.gone ++ [{ s with isOpen := false }]
    | none => st.gone
  let sock : Socket := ⟨waveformWsURL e videoUrl, true⟩
  ({ st with ws := some sock, gone := goneSocks },
   closeEffs ++ [Effect.openWS sock.url])

/-- The amplitude-buffer update of the `ws.onmessage` handler
(app.js:418-422): push the value, then drop the oldest entry when the
buffer exceeds `MAX_AMPLITUDES = 100`. -/
def pushTrim (buf : List ℚ) (v : ℚ) : List ℚ :=
  let b := buf ++ [v]
  if 100 < b.length then b.tail else b

/-- A parsed live-channel message as the `onmessage` handler reads it: its
`type` tag, its `value` field (read only on amplitude messages) and its
`message` field (read only on error messages). -/
structure WsData where
  type : String
  value : ℚ
  message : String

/-- Model of the `ws.onmessage` handler (app.js:415-428): an `amplitude`
message pushes its value through `pushTrim`; `complete`, `error` and any
other type only log to the console and leave the state unchanged. -/
def onMessage (d : WsData) (st : PlayerState) : PlayerState :=
  if d.type = "amplitude" then { st with amplitudes := pushTrim st.amplitudes d.value }
  else st

/-- Model of `playAudio` (app.js:455-506). The input is trimmed; an empty or
invalid URL only raises an alert. Otherwise the UI enters the loading
state, the amplitude buffer is cleared, the `/info` fetch runs, the audio
source is assigned, the waveform socket is connected, and `play()` is
awaited: on success the playing UI is set, on rejection the catch branch
(app.js:499-505) sets the error UI. -/
def playAudio (e : Env) (input : String) (st : PlayerState) :
    PlayerState × List Effect :=
  let videoUrl := jsTrim input
  if videoUrl = "" then
    (st, [Effect.alert "Please enter a video URL"])
  else if !validateUrl e.parse (.str videoUrl) then
    (st, [Effect.alert "Please enter a valid URL (must start with http:// or https://)"])
  else
    let st1 := { st with
      playBtnDisabled := true, playBtnLoading := true,
      playBtnHtml := loadingHtml, trackTitle := "Loading...",
      amplitudes := [] }
    let r1 := fetchTrackInfo e videoUrl st1
    let streamUrl := streamRequestURL e videoUrl
    let st3 := { r1.1 with audioSrc := some streamUrl, volume := r1.1.sliderValue / 100 }
    let r2 := connectWaveformWS e videoUrl st3
    let effs := r1.2 ++ [Effect.setSrc streamUrl] ++ r2.2 ++ [Effect.playCall]
    if e.playOk then
      ({ r2.1 with isPlaying := true, playBtnHtml := pauseHtml, playBtnDisabled := false, playBtnLoading := false }, effs)
    else
      ({ r2.1 with trackTitle := "Error loading track", playBtnHtml := playHtml, playBtnDisabled := false, playBtnLoading := false }, effs)

/-- Model of `pauseAudio` (app.js:509-513). -/
def pauseAudio (st : PlayerState) : PlayerState × List Effect :=
  ({ st with isPlaying := false, playBtnHtml := playHtml }, [Effect.pauseCall])

/-- Model of `togglePlayPause` (app.js:516-522). -/
def togglePlayPause (e : Env) (input : String) (st : PlayerState) :
    PlayerState × List Effect :=
  if st.isPlaying then pauseAudio st else playAudio e input st

/-- Model of the audio element's `ended` listener (app.js:539-545): stop
playing, reset the button markup, and close the socket held in `ws` when
there is one. -/
def onEnded (st : PlayerState) : PlayerState × List Effect :=
  let st1 := { st with isPlaying := false, playBtnHtml := playHtml }
  match st.ws with
  | some s => ({ st1 with ws := some { s with isOpen := false } }, [Effect.closeWS s])
  | none => (st1, [])

/-- Model of the audio element's `error` listener (app.js:547-554): stop
playing, reset and re-enable the button, and show the error title. It
issues no external request. -/
def onAudioError (st : PlayerState) : PlayerState × List Effect :=
  ({ st with isPlaying := false, playBtnHtml := playHtml, playBtnDisabled := false, playBtnLoading := false, trackTitle := "Error loading audio" }, [])

/-- Model of the volume slider's `input` listener (app.js:535-537). -/
def onVolumeInput (q : ℚ) (st : PlayerState) : PlayerState × List Effect :=
  ({ st with sliderValue := q, volume := q / 100 }, [])

/-- The user-facing and browser-facing events wired up by app.js: a play
button click (app.js:525), an Enter keypress in the URL field
(app.js:527-533), a live-channel message, the audio `ended` and `error`
events, and a volume slider input. -/
inductive Event where
  | clickToggle (e : Env) (input : String)
  | enterKey (e : Env) (input : String)
  | wsMsg (d : WsData)
  | ended
  | audioError
  | volumeInput (q : ℚ)

/-- One event-handler step of the page. -/
def step (st : PlayerState) : Event → PlayerState × List Effect
  | .clickToggle e input => togglePlayPause e input st
  | .enterKey e input => if !st.isPlaying then playAudio e input st else (st, [])
  | .wsMsg d => (onMessage d st, [])
  | .ended => onEnded st
  | .audioError => onAudioError st
  | .volumeInput q => onVolumeInput q st

/-- The page state at load: empty buffer, no socket, not playing. -/
def initState : PlayerState :=
  { playBtnDisabled := false, playBtnLoading := false, playBtnHtml := playHtml,
    trackTitle := "", amplitudes := [], audioSrc := none, volume := 1,
    sliderValue := 100, ws := none, isPlaying := false, gone := [] }

/-- The page state after a sequence of events from load. -/
def runState (evs : List Event) : PlayerState :=
  evs.foldl (fun st ev => (step st ev).1) initState

/-- One drawn waveform bar: the rectangle handed to `roundRect`/`rect`
(app.js:377-380), with `y` and `h` the vertical extent used by the drawing
loop (app.js:367-372). -/
structure Bar where
  x : ℚ
  y : ℚ
  w : ℚ
  h : ℚ
deriving DecidableEq

/-- The bar geometry computed by the drawing loop of `drawWaveform`
(app.js:359-383): bar width `width / MAX_AMPLITUDES`, bar height
`amplitude * (height - 20)`, left edge `i * barWidth`, top edge
`centerY - barHeight / 2` with `centerY = height / 2`; the rectangle is
drawn at `(x + 1, y)` with width `barWidth - 2` and height `barHeight`. -/
def drawWaveformBars (amps : List ℚ) (width height : ℚ) : List Bar :=
  (List.range amps.length).zip amps |>.map fun p =>
    let barWidth := width / 100
    let barHeight := p.2 * (height - 20)
    let x := (p.1 : ℚ) * barWidth
    let y := height / 2 - barHeight / 2
    ⟨x + 1, y, barWidth - 2, barHeight⟩

/-- Modelled from the spec: the backend Amplitude Extractor (spec §4.4, §3)
is not part of src/ (only the frontend is provided). Per the spec it
computes one normalized magnitude in [0,1] per fixed window of source audio
and yields samples with monotonically increasing `sequence`. -/
structure AmplitudeSample where
  value : ℚ
  sequence : ℕ
deriving DecidableEq

/-- Modelled from the spec: normalization clamps a window magnitude into
[0,1] (spec §3: `value: float in [0,1]`; §9 leaves the exact algorithm
open). -/
def normalizeWindow (w : ℚ) : ℚ := max 0 (min 1 w)

/-- Modelled from the spec: `openAmplitudeStream` (spec §4.4) yields one
sample per window, in window order, with `sequence` numbering the windows
from 0 upward. -/
def openAmplitudeStream (windows : List ℚ) : List AmplitudeSample :=
  windows.enum.map fun p => ⟨normalizeWindow p.2, p.1⟩

/-- Modelled from the spec: a slow consumer may drop samples but the channel
never reorders or duplicates them (spec §3), so the delivered samples of a
session form a sublist of the produced stream. -/
def deliverable (windows : List ℚ) (delivered : List AmplitudeSample) : Prop :=
  delivered.Sublist (openAmplitudeStream windows)

/-- The last `n` elements of a list, in order. -/
def lastN {α : Type} (n : ℕ) (l : List α) : List α := l.drop (l.length - n)

/-- The values of the amplitude-typed messages of a message sequence, in
arrival order. -/
def ampValues (msgs : List WsData) : List ℚ :=
  (msgs.filter (fun d => d.type = "amplitude")).map WsData.value

/-- Every socket the client abandoned was closed first. -/
def goneClosed (st : PlayerState) : Prop :=
  ∀ s ∈ st.gone, s.isOpen = false

/-- How many client-held sockets are still open: the open ones among the
abandoned sockets plus the current `ws` socket when it is open. -/
def openSocketCount (st : PlayerState) : ℕ :=
  st.gone.countP (fun s => s.isOpen) +
  (match st.ws with | some s => if s.isOpen then 1 else 0 | none => 0)

/-- Recognize a `/info` fetch effect. -/
def isFetchEff : Effect → Bool
  | .fetchInfo _ => true
  | _ => false

/-- Recognize an audio-source assignment effect. -/
def isSetSrcEff : Effect → Bool
  | .setSrc _ => true
  | _ => false

/-- Recognize a WebSocket-open effect. -/
def isOpenWSEff : Effect → Bool
  | .openWS _ => true
  | _ => false

/-- A stub `new URL` model for concrete evaluations: every string parses
with protocol `http:`. -/
def pStub : String → Option String := fun _ => some "http:"

/-- A concrete environment for evaluations: a localhost page, a resolvable
track, a playable stream. -/
def envW : Env := ⟨"localhost", "http:", pStub, true, some "Song", true⟩

/-- The environment `envW` with a rejecting `audioPlayer.play()`. -/
def envFail : Env := { envW with playOk := false }

/-- A concrete open socket for evaluations. -/
def sockW : Socket := ⟨"ws://localhost:8000/ws/waveform?url=u", true⟩

/-- The page state holding the open socket `sockW`. -/
def stW : PlayerState := { initState with ws := some sockW }

/-- C1: for every input string that is empty after trimming or that fails
`validateUrl`, `playAudio` rejects the input before invoking any external
capability: the player state is returned unchanged and every emitted effect
is an `alert` dialog — in particular there is no `/info` fetch, no `/stream`
source assignment and no `/ws/waveform` connection. -/
theorem claim_C1 (e : Env) (input : String) (st : PlayerState)
    (h : jsTrim input = "" ∨ validateUrl e.parse (.str (jsTrim input)) = false) :
    (playAudio e input st).1 = st ∧
    ∀ eff ∈ (playAudio e input st).2, ∃ m, eff = Effect.alert m := by
  rcases h with h | h
  · simp [playAudio, h]
  · by_cases h0 : jsTrim input = ""
    · simp [playAudio, h0]
    · simp [playAudio, h0, h]

/-- Witness for C1 at the concrete input `"notaurl"`, which trims to a
nonempty string that fails validation. -/
theorem claim_C1_witness :
    (playAudio envW "notaurl" initState).1 = initState ∧
    ∀ eff ∈ (playAudio envW "notaurl" initState).2, ∃ m, eff = Effect.alert m :=
  claim_C1 envW "notaurl" initState (Or.inr (by decide))

/-- C3: the `onmessage` handler appends `data.value` to the amplitude buffer
exactly when the message type is `"amplitude"` (dropping the oldest entry
when the buffer already holds 100 values); any other message type — in
particular `"complete"` and `"error"` — leaves the whole player state
unchanged. -/
theorem claim_C3 (d : WsData) (st : PlayerState) :
    (d.type ≠ "amplitude" → onMessage d st = st) ∧
    (d.type = "amplitude" → st.amplitudes.length < 100 →
      onMessage d st = { st with amplitudes := st.amplitudes ++ [d.value] }) ∧
    (d.type = "amplitude" → 100 ≤ st.amplitudes.length →
      onMessage d st = { st with amplitudes := (st.amplitudes ++ [d.value]).tail }) := by
  refine ⟨fun h => by simp [onMessage, h], fun h hlen => ?_, fun h hlen => ?_⟩
  · have h' : pushTrim st.amplitudes d.value = st.amplitudes ++ [d.value] := by
      unfold pushTrim
      have hc : ¬ 100 < (st.amplitudes ++ [d.value]).length := by
        rw [List.length_append]; simp; omega
      rw [if_neg hc]
    simp [onMessage, h, h']
  · have h' : pushTrim st.amplitudes d.value = (st.amplitudes ++ [d.value]).tail := by
      unfold pushTrim
      have hc : 100 < (st.amplitudes ++ [d.value]).length := by
        rw [List.length_append]; simp; omega
      rw [if_pos hc]
    simp [onMessage, h, h']

/-- Witness for C3: an amplitude message appends to the empty buffer, and a
complete message changes nothing. -/
theorem claim_C3_witness :
    onMessage ⟨"amplitude", 1/2, ""⟩ initState =
      { initState with amplitudes := initState.amplitudes ++ [(1 : ℚ)/2] } ∧
    onMessage ⟨"complete", 0, ""⟩ initState = initState :=
  ⟨(claim_C3 ⟨"amplitude", 1/2, ""⟩ initState).2.1 rfl (by decide),
   (claim_C3 ⟨"complete", 0, ""⟩ initState).1 (by decide)⟩

/-- C5: the audio element's `ended` listener sets `isPlaying` to false, and
when a waveform socket is held it closes it: the close effect is emitted and
the held socket is recorded closed, cancelling the amplitude branch. -/
theorem claim_C5 (st : PlayerState) :
    (onEnded st).1.isPlaying = false ∧
    ∀ s, st.ws = some s →
      (onEnded st).1.ws = some { s with isOpen := false } ∧
      Effect.closeWS s ∈ (onEnded st).2 := by
  unfold onEnded
  cases hws : st.ws with
  | none => simp
  | some s => simp

/-- Witness for C5 at a state holding the open socket `sockW`. -/
theorem claim_C5_witness :
    (onEnded stW).1.isPlaying = false ∧
    (onEnded stW).1.ws = some { sockW with isOpen := false } ∧
    Effect.closeWS sockW ∈ (onEnded stW).2 :=
  ⟨(claim_C5 stW).1, ((claim_C5 stW).2 sockW rfl).1, ((claim_C5 stW).2 sockW rfl).2⟩

/-- C10: `validateUrl` is total by construction (it is a function into
`Bool`; the one fallible browser call it makes, the `URL` constructor, is
modelled by the `parse` argument whose `none` case is the caught throw). It
returns false on every non-string and on the empty string, on every input
whose trimmed length is below 10 or above 2048, and on every input whose
parsed protocol is neither `http:` nor `https:`; and it returns true only
when the trimmed input matches `URL_PATTERN` and the `URL` constructor
succeeds with an `http:` or `https:` protocol. -/
theorem claim_C10 (parse : String → Option String) :
    validateUrl parse .notStr = false ∧
    validateUrl parse (.str "") = false ∧
    (∀ s, (jsTrim s).length < 10 → validateUrl parse (.str s) = false) ∧
    (∀ s, 2048 < (jsTrim s).length → validateUrl parse (.str s) = false) ∧
    (∀ s p, parse (jsTrim s) = some p → p ≠ "http:" → p ≠ "https:" →
      validateUrl parse (.str s) = false) ∧
    (∀ s, validateUrl parse (.str s) = true →
      urlPatternTest (jsTrim s) = true ∧
      ∃ p, parse (jsTrim s) = some p ∧ (p = "http:" ∨ p = "https:")) := by
  have hv : ∀ s : String, validateUrl parse (.str s) =
      (if s = "" then false
       else if (jsTrim s).length < 10 || 2048 < (jsTrim s).length then false
       else if !urlPatternTest (jsTrim s) then false
       else match parse (jsTrim s) with
         | none => false
         | some proto => (proto = "http:" || proto = "https:")) :=
    fun s => rfl
  refine ⟨rfl, rfl, fun s hlen => ?_, fun s hlen => ?_, fun s p hp hph hps => ?_,
    fun s htrue => ?_⟩
  · rw [hv]
    split_ifs with h0 h1 h2 <;> try rfl
    exfalso; simp at h1; omega
  · rw [hv]
    split_ifs with h0 h1 h2 <;> try rfl
    exfalso; simp at h1; omega
  · rw [hv]
    split_ifs with h0 h1 h2 <;> try rfl
    rw [hp]; simp [hph, hps]
  · rw [hv] at htrue
    split_ifs at htrue with h0 h1 h2
    · exact ⟨by simpa using h2, by
        rcases hparse : parse (jsTrim s) with _ | p
        · rw [hparse] at htrue; cases htrue
        · rw [hparse] at htrue
          exact ⟨p, rfl, by simpa using htrue⟩⟩

/-- Witness for C10: the stub parser on a non-string, a too-short string,
and a fully valid URL. -/
theorem claim_C10_witness :
    validateUrl pStub .notStr = false ∧
    validateUrl pStub (.str "ab") = false ∧
    validateUrl pStub (.str "http://example.com") = true :=
  ⟨(claim_C10 pStub).1, (claim_C10 pStub).2.2.1 "ab" (by decide), by decide⟩

/-- `fetchTrackInfo` issues exactly one `/info` fetch, whatever the outcome. -/
theorem fetchTrackInfo_effects (e : Env) (u : String) (st : PlayerState) :
    (fetchTrackInfo e u st).2 = [Effect.fetchInfo (infoRequestURL e u)] := by
  unfold fetchTrackInfo
  by_cases hI : e.infoOk
  · simp only [hI, if_true]
    cases e.infoTitle with
    | none => rfl
    | some t =>
      by_cases ht : t ≠ ""
      · simp [ht]
      · simp [ht]
  · simp [hI]

/-- `fetchTrackInfo` leaves the `ws` variable untouched. -/
theorem fetchTrackInfo_ws (e : Env) (u : String) (st : PlayerState) :
    (fetchTrackInfo e u st).1.ws = st.ws := by
  unfold fetchTrackInfo
  by_cases hI : e.infoOk
  · simp only [hI, if_true]
    cases e.infoTitle with
    | none => rfl
    | some t =>
      by_cases ht : t ≠ ""
      · simp [ht]
      · simp [ht]
  · simp [hI]

/-- The effect list of a `playAudio` run that passes both input guards:
one `/info` fetch, one `/stream` source assignment, the close of a
previously held socket when there is one, one `/ws/waveform` open, and the
`play()` call, in program order. -/
theorem playAudio_effects (e : Env) (input : String) (st : PlayerState)
    (h0 : jsTrim input ≠ "") (h : validateUrl e.parse (.str (jsTrim input)) = true) :
    (playAudio e input st).2 =
      [Effect.fetchInfo (infoRequestURL e (jsTrim input)),
       Effect.setSrc (streamRequestURL e (jsTrim input))] ++
      (match st.ws with | some s => [Effect.closeWS s] | none => []) ++
      [Effect.openWS (waveformWsURL e (jsTrim input)), Effect.playCall] := by
  simp only [playAudio, h0, h]
  by_cases hp : e.playOk
  · simp [hp, fetchTrackInfo_effects, fetchTrackInfo_ws, connectWaveformWS]
  · simp [hp, fetchTrackInfo_effects, fetchTrackInfo_ws, connectWaveformWS]

/-- C2: within one accepted `playAudio` invocation, the same trimmed,
URI-component-encoded URL string is used for all three backend surfaces:
the `/info` request, the `/stream` audio source, and the `/ws/waveform`
connection. -/
theorem claim_C2 (e : Env) (input : String) (st : PlayerState)
    (h : validateUrl e.parse (.str (jsTrim input)) = true) :
    Effect.fetchInfo (backendURL e ++ "/info?url=" ++ encodeURIComponent (jsTrim input)) ∈ (playAudio e input st).2 ∧
    Effect.setSrc (backendURL e ++ "/stream?url=" ++ encodeURIComponent (jsTrim input)) ∈ (playAudio e input st).2 ∧
    Effect.openWS (wsURL e ++ "/ws/waveform?url=" ++ encodeURIComponent (jsTrim input)) ∈ (playAudio e input st).2 := by
  have h0 : jsTrim input ≠ "" := by
    intro h'
    rw [h'] at h
    simp [validateUrl] at h
  rw [playAudio_effects e input st h0 h]
  refine ⟨?_, ?_, ?_⟩ <;> cases st.ws <;> simp [infoRequestURL, streamRequestURL, waveformWsURL]

/-- Witness for C2 at the concrete input `" http://example.com "` in the
localhost environment. -/
theorem claim_C2_witness :
    Effect.fetchInfo (backendURL envW ++ "/info?url=" ++ encodeURIComponent (jsTrim " http://example.com ")) ∈ (playAudio envW " http://example.com " initState).2 ∧
    Effect.setSrc (backendURL envW ++ "/stream?url=" ++ encodeURIComponent (jsTrim " http://example.com ")) ∈ (playAudio envW " http://example.com " initState).2 ∧
    Effect.openWS (wsURL envW ++ "/ws/waveform?url=" ++ encodeURIComponent (jsTrim " http://example.com ")) ∈ (playAudio envW " http://example.com " initState).2 :=
  claim_C2 envW " http://example.com " initState (by decide)

/-- C4: in any one channel session, the delivered amplitude samples carry
strictly increasing sequence numbers — no reordering, no duplication, no
repeated sequence number (modelled from the spec: the extractor numbers
windows 0, 1, 2, … and a slow channel may only drop samples). -/
theorem claim_C4 (windows : List ℚ) (delivered : List AmplitudeSample)
    (h : deliverable windows delivered) :
    (delivered.map AmplitudeSample.sequence).Pairwise (· < ·) := by
  have hseq : (openAmplitudeStream windows).map AmplitudeSample.sequence =
      List.range windows.length := by
    unfold openAmplitudeStream
    rw [List.map_map]
    have : (AmplitudeSample.sequence ∘ fun p : ℕ × ℚ => AmplitudeSample.mk (normalizeWindow p.2) p.1) = Prod.fst := by
      funext p
      rfl
    rw [this, List.enum_map_fst]
  have hsub : (delivered.map AmplitudeSample.sequence).Sublist
      ((openAmplitudeStream windows).map AmplitudeSample.sequence) :=
    List.Sublist.map _ h
  rw [hseq] at hsub
  exact List.Pairwise.sublist hsub (List.pairwise_lt_range _)

/-- Witness for C4: a three-window source delivered in full. -/
theorem claim_C4_witness :
    ((openAmplitudeStream [1/2, 2, 0]).map AmplitudeSample.sequence).Pairwise (· < ·) :=
  claim_C4 [1/2, 2, 0] (openAmplitudeStream [1/2, 2, 0]) (List.Sublist.refl _)

/-- C7: with the canvas height fixed at 150 by `resizeCanvas`, every bar
drawn from an amplitude buffer of values in [0,1] lies fully inside the
canvas: its top edge is at or below y = 10 from the top and its bottom edge
at or above y = 10 from the bottom. -/
theorem claim_C7 (amps : List ℚ) (width : ℚ)
    (h : ∀ v ∈ amps, 0 ≤ v ∧ v ≤ 1) :
    ∀ b ∈ drawWaveformBars amps width 150, 10 ≤ b.y ∧ b.y + b.h ≤ 150 - 10 := by
  intro b hb
  unfold drawWaveformBars at hb
  simp only [List.mem_map] at hb
  obtain ⟨⟨i, v⟩, hp, rfl⟩ := hb
  have hv := h v (List.of_mem_zip hp).2
  constructor
  · simp only
    norm_num
    linarith [hv.1, hv.2]
  · simp only
    norm_num
    linarith [hv.1, hv.2]

/-- Witness for C7: the single bar drawn for the buffer `[1/2]` on a
100-wide, 150-high canvas. -/
theorem claim_C7_witness :
    10 ≤ (Bar.mk 1 (85/2) (-1) 65).y ∧
    (Bar.mk 1 (85/2) (-1) 65).y + (Bar.mk 1 (85/2) (-1) 65).h ≤ 150 - 10 :=
  claim_C7 [1/2] 100 (by norm_num) (Bar.mk 1 (85/2) (-1) 65)
    (by simp [drawWaveformBars, List.range, List.range.loop]; norm_num)

/-- `fetchTrackInfo` leaves the `isPlaying` flag untouched. -/
theorem fetchTrackInfo_isPlaying (e : Env) (u : String) (st : PlayerState) :
    (fetchTrackInfo e u st).1.isPlaying = st.isPlaying := by
  unfold fetchTrackInfo
  by_cases hI : e.infoOk
  · simp only [hI, if_true]
    cases e.infoTitle with
    | none => rfl
    | some t =>
      by_cases ht : t ≠ ""
      · simp [ht]
      · simp [ht]
  · simp [hI]

/-- `fetchTrackInfo` leaves the abandoned-socket history untouched. -/
theorem fetchTrackInfo_gone (e : Env) (u : String) (st : PlayerState) :
    (fetchTrackInfo e u st).1.gone = st.gone := by
  unfold fetchTrackInfo
  by_cases hI : e.infoOk
  · simp only [hI, if_true]
    cases e.infoTitle with
    | none => rfl
    | some t =>
      by_cases ht : t ≠ ""
      · simp [ht]
      · simp [ht]
  · simp [hI]

/-- C6: on every failure during playback start (`playAudio`'s catch branch,
entered from a non-playing state when `play()` rejects) and on every audio
element error, the client enters an immediate error state — error text
shown, play button reset and re-enabled, `isPlaying` false — and each
backend request kind (`/info` fetch, `/stream` assignment, `/ws/waveform`
open) appears at most once in the run's effects: nothing is retried, and
the error listener issues no effect at all. -/
theorem claim_C6 (e : Env) (input : String) (st : PlayerState)
    (hplay : st.isPlaying = false) (hfail : e.playOk = false) :
    (validateUrl e.parse (.str (jsTrim input)) = true →
      ((playAudio e input st).1.trackTitle = "Error loading track" ∧
       (playAudio e input st).1.playBtnHtml = playHtml ∧
       (playAudio e input st).1.playBtnDisabled = false ∧
       (playAudio e input st).1.playBtnLoading = false ∧
       (playAudio e input st).1.isPlaying = false ∧
       (playAudio e input st).2.countP isFetchEff ≤ 1 ∧
       (playAudio e input st).2.countP isSetSrcEff ≤ 1 ∧
       (playAudio e input st).2.countP isOpenWSEff ≤ 1)) ∧
    ((onAudioError st).1.isPlaying = false ∧
     (onAudioError st).1.trackTitle = "Error loading audio" ∧
     (onAudioError st).1.playBtnHtml = playHtml ∧
     (onAudioError st).1.playBtnDisabled = false ∧
     (onAudioError st).1.playBtnLoading = false ∧
     (onAudioError st).2 = []) := by
  constructor
  · intro h
    have h0 : jsTrim input ≠ "" := by
      intro h'
      rw [h'] at h
      simp [validateUrl] at h
    have heff := playAudio_effects e input st h0 h
    have hrun : (playAudio e input st).1.trackTitle = "Error loading track" ∧
        (playAudio e input st).1.playBtnHtml = playHtml ∧
        (playAudio e input st).1.playBtnDisabled = false ∧
        (playAudio e input st).1.playBtnLoading = false ∧
        (playAudio e input st).1.isPlaying = false := by
      simp only [playAudio, h0, h]
      simp only [hfail]
      simp [connectWaveformWS, fetchTrackInfo_isPlaying, hplay]
    refine ⟨hrun.1, hrun.2.1, hrun.2.2.1, hrun.2.2.2.1, hrun.2.2.2.2, ?_, ?_, ?_⟩ <;>
      rw [heff] <;> cases st.ws <;>
      simp [List.countP_cons, List.countP_append, isFetchEff, isSetSrcEff, isOpenWSEff]
  · exact ⟨rfl, rfl, rfl, rfl, rfl, rfl⟩

/-- Witness for C6: the localhost environment with a rejecting `play()` on
a valid URL, and the error listener from the initial state. -/
theorem claim_C6_witness :
    (playAudio envFail "http://example.com" initState).1.trackTitle = "Error loading track" ∧
    (playAudio envFail "http://example.com" initState).1.isPlaying = false ∧
    (playAudio envFail "http://example.com" initState).2.countP isFetchEff ≤ 1 ∧
    (onAudioError initState).2 = [] := by
  have h := claim_C6 envFail "http://example.com" initState rfl rfl
  have ha := h.1 (by decide)
  exact ⟨ha.1, ha.2.2.2.2.1, ha.2.2.2.2.2.1, h.2.2.2.2.2.2⟩

/-- The last-`n` view is never longer than `n`. -/
theorem length_lastN {α : Type} (n : ℕ) (l : List α) : (lastN n l).length ≤ n := by
  unfold lastN
  rw [List.length_drop]
  omega

/-- Pushing a value through the buffer update keeps the buffer equal to the
last 100 values seen. -/
theorem pushTrim_lastN (v : ℚ) (vs : List ℚ) :
    pushTrim (lastN 100 vs) v = lastN 100 (vs ++ [v]) := by
  unfold pushTrim lastN
  by_cases hL : vs.length < 100
  · have h1 : vs.length - 100 = 0 := by omega
    have h3 : (vs ++ [v]).length - 100 = 0 := by
      rw [List.length_append]; simp; omega
    have h2 : ¬ 100 < (vs.drop (vs.length - 100) ++ [v]).length := by
      rw [List.length_append, List.length_drop]; simp; omega
    rw [if_neg h2, h1, h3, List.drop_zero, List.drop_zero]
  · push_neg at hL
    have hlen : (vs.drop (vs.length - 100)).length = 100 := by
      rw [List.length_drop]; omega
    have h2 : 100 < (vs.drop (vs.length - 100) ++ [v]).length := by
      rw [List.length_append, hlen]; simp
    rw [if_pos h2]
    have hne : vs.drop (vs.length - 100) ≠ [] := by
      intro h'
      rw [h'] at hlen
      simp at hlen
    obtain ⟨a, t, hat⟩ := List.exists_cons_of_ne_nil hne
    have htail : (vs.drop (vs.length - 100) ++ [v]).tail = (vs.drop (vs.length - 100)).tail ++ [v] := by
      rw [hat]; rfl
    rw [htail, List.tail_drop]
    have hidx : (vs ++ [v]).length - 100 = (vs.length - 100) + 1 := by
      rw [List.length_append]; simp; omega
    rw [hidx, List.drop_append_of_le_length (by omega)]

/-- Folding the message handler from a buffer equal to the last 100 of some
value history extends that history by the incoming amplitude values. -/
theorem foldl_onMessage_lastN (msgs : List WsData) :
    ∀ (st : PlayerState) (vs : List ℚ), st.amplitudes = lastN 100 vs →
      (msgs.foldl (fun s d => onMessage d s) st).amplitudes =
        lastN 100 (vs ++ ampValues msgs) := by
  induction msgs with
  | nil =>
    intro st vs h
    simpa [ampValues] using h
  | cons d rest ih =>
    intro st vs h
    simp only [List.foldl_cons]
    by_cases hd : d.type = "amplitude"
    · have hamp : (onMessage d st).amplitudes = lastN 100 (vs ++ [d.value]) := by
        simp [onMessage, hd, h, pushTrim_lastN]
      rw [ih (onMessage d st) (vs ++ [d.value]) hamp]
      simp [ampValues, hd, List.append_assoc]
    · have hm : onMessage d st = st := by simp [onMessage, hd]
      rw [hm, ih st vs h]
      simp [ampValues, hd]

/-- C8: after the client handles any sequence of live-channel messages from
an empty buffer, the amplitude buffer holds at most `MAX_AMPLITUDES = 100`
values, and it is exactly the most recent (up to) 100 amplitude values in
their arrival order — a full buffer drops its oldest value on each push. -/
theorem claim_C8 (msgs : List WsData) (st : PlayerState)
    (h : st.amplitudes = []) :
    (msgs.foldl (fun s d => onMessage d s) st).amplitudes.length ≤ 100 ∧
    (msgs.foldl (fun s d => onMessage d s) st).amplitudes = lastN 100 (ampValues msgs) := by
  have h0 : st.amplitudes = lastN 100 ([] : List ℚ) := by simpa [lastN] using h
  have hmain := foldl_onMessage_lastN msgs st [] h0
  simp only [List.nil_append] at hmain
  exact ⟨by rw [hmain]; exact length_lastN _ _, hmain⟩

/-- Witness for C8: a single amplitude message handled from the initial
state. -/
theorem claim_C8_witness :
    (([⟨"amplitude", 1, ""⟩] : List WsData).foldl (fun s d => onMessage d s) initState).amplitudes.length ≤ 100 ∧
    (([⟨"amplitude", 1, ""⟩] : List WsData).foldl (fun s d => onMessage d s) initState).amplitudes = lastN 100 (ampValues [⟨"amplitude", 1, ""⟩]) :=
  claim_C8 [⟨"amplitude", 1, ""⟩] initState rfl

/-- `playAudio` either leaves the abandoned-socket history alone or appends
the replaced socket, recorded closed. -/
theorem playAudio_gone (e : Env) (input : String) (st : PlayerState) :
    (playAudio e input st).1.gone = st.gone ∨
    ∃ s, st.ws = some s ∧
      (playAudio e input st).1.gone = st.gone ++ [{ s with isOpen := false }] := by
  unfold playAudio
  by_cases h0 : jsTrim input = ""
  · left; simp [h0]
  · by_cases hv : validateUrl e.parse (.str (jsTrim input)) = true
    · simp only [h0, hv]
      rcases hw : st.ws with _ | s
      · left
        by_cases hp : e.playOk <;>
          simp [hp, connectWaveformWS, fetchTrackInfo_ws, fetchTrackInfo_gone, hw]
      · right
        refine ⟨s, rfl, ?_⟩
        by_cases hp : e.playOk <;>
          simp [hp, connectWaveformWS, fetchTrackInfo_ws, fetchTrackInfo_gone, hw]
    · left; simp [h0, hv]

/-- `playAudio` preserves the all-abandoned-sockets-closed invariant. -/
theorem playAudio_goneClosed (e : Env) (input : String) (st : PlayerState)
    (h : goneClosed st) : goneClosed (playAudio e input st).1 := by
  rcases playAudio_gone e input st with hg | ⟨s, _, hg⟩
  · intro x hx
    exact h x (hg ▸ hx)
  · intro x hx
    rw [hg, List.mem_append] at hx
    rcases hx with hx | hx
    · exact h x hx
    · simp at hx
      rw [hx]

/-- The message handler never touches the abandoned-socket history. -/
theorem onMessage_gone (d : WsData) (st : PlayerState) :
    (onMessage d st).gone = st.gone := by
  unfold onMessage
  split <;> rfl

/-- The `ended` listener never touches the abandoned-socket history. -/
theorem onEnded_gone (st : PlayerState) :
    (onEnded st).1.gone = st.gone := by
  unfold onEnded
  rcases hw : st.ws with _ | s <;> simp [hw]

/-- Every event handler preserves the all-abandoned-sockets-closed
invariant. -/
theorem step_goneClosed (st : PlayerState) (ev : Event) (h : goneClosed st) :
    goneClosed (step st ev).1 := by
  cases ev with
  | clickToggle e input =>
    unfold step togglePlayPause
    by_cases hp : st.isPlaying
    · simp only [hp, if_true]
      exact h
    · simp only [hp, Bool.false_eq_true, if_false]
      exact playAudio_goneClosed e input st h
  | enterKey e input =>
    unfold step
    by_cases hp : st.isPlaying
    · simp only [hp, Bool.not_true, Bool.false_eq_true, if_false]
      exact h
    · simp only [hp, Bool.not_false, if_true]
      exact playAudio_goneClosed e input st h
  | wsMsg d =>
    intro x hx
    exact h x (onMessage_gone d st ▸ hx)
  | ended =>
    intro x hx
    exact h x (onEnded_gone st ▸ hx)
  | audioError => exact h
  | volumeInput q => exact h

/-- The invariant holds along every event fold. -/
theorem foldl_step_goneClosed (evs : List Event) :
    ∀ st : PlayerState, goneClosed st →
      goneClosed (evs.foldl (fun s ev => (step s ev).1) st) := by
  induction evs with
  | nil => intro st h; simpa using h
  | cons ev rest ih =>
    intro st h
    simp only [List.foldl_cons]
    exact ih _ (step_goneClosed st ev h)

/-- Every abandoned socket of any reachable page state was closed before
abandonment. -/
theorem runState_goneClosed (evs : List Event) : goneClosed (runState evs) :=
  foldl_step_goneClosed evs initState (fun s hs => by cases hs)

/-- With all abandoned sockets closed, at most the current `ws` socket is
open. -/
theorem goneClosed_count (st : PlayerState) (h : goneClosed st) :
    openSocketCount st ≤ 1 := by
  unfold openSocketCount
  have h0 : st.gone.countP (fun s => s.isOpen) = 0 :=
    List.countP_eq_zero.mpr (fun s hs => by simp [h s hs])
  rw [h0]
  rcases st.ws with _ | s
  · simp
  · by_cases ho : s.isOpen <;> simp [ho]

/-- C9: `connectWaveformWS` closes the previously held socket before it
opens the new one (its effect list is exactly the close of the old socket
followed by the open of the new), and consequently, along every event
sequence from page load, every abandoned socket is closed and the client
holds at most one open live waveform channel. -/
theorem claim_C9 :
    (∀ (e : Env) (u : String) (st : PlayerState) (s : Socket), st.ws = some s →
      (connectWaveformWS e u st).2 =
        [Effect.closeWS s, Effect.openWS (waveformWsURL e u)]) ∧
    (∀ evs : List Event,
      goneClosed (runState evs) ∧ openSocketCount (runState evs) ≤ 1) := by
  constructor
  · intro e u st s hws
    simp [connectWaveformWS, hws]
  · intro evs
    have h := runState_goneClosed evs
    exact ⟨h, goneClosed_count _ h⟩

/-- Witness for C9: replacing the held socket `sockW` emits its close
before the new open, and the freshly loaded page holds at most one open
channel. -/
theorem claim_C9_witness :
    (connectWaveformWS envW "u" stW).2 =
      [Effect.closeWS sockW, Effect.openWS (waveformWsURL envW "u")] ∧
    openSocketCount (runState []) ≤ 1 :=
  ⟨claim_C9.1 envW "u" stW sockW rfl, (claim_C9.2 []).2⟩
